/-
Verification of the page/canvas core of the Notebook drawing application
(src/notebook.py) against its natural-language specification.

The Python source is shallowly embedded below.  Conventions:

* `QPixmap` is modelled by `Pixmap`: fixed width/height plus a total pixel
  function `pix : Int → Int → Color`.  `QPixmap.copy()` has value semantics
  in this model; the aliasing questions raised by the spec's snapshot
  isolation property are treated separately with an explicit heap model
  (see the `HeapModel` section).
* Python lists used as stacks (`append` / `pop()` at the right end) are
  modelled by Lean lists with the stack top at the HEAD: `append` becomes
  `cons`, `pop()` pops the head, `clear()` becomes `[]`.
* The per-index dictionaries `undo_stacks` / `redo_stacks` are modelled by
  the total function `StackMap := Int → Option (List Pixmap)`;
  `dict.pop(i, None)` sets the entry to `none`, `setdefault i []` fills a
  `none` entry with `some []`.
* External collaborators (Qt image decoding and scaling, the clipboard,
  the line rasterizer) are parameters: an `Option Pixmap` stands for the
  result of a decode (+ scale-to-fill) attempt, `none` when the path cannot
  be decoded (Qt then yields a null pixmap, and drawing a null pixmap is a
  no-op); the antialiased `QPainter.drawLine` rasterizer is an explicit
  function parameter `drawLine`.
* Pointer positions handed to the mouse event handlers are the page-local
  points `event.pos() - drawing_rect().topLeft()` that the source computes
  itself; window geometry (the toolbar offset) is external chrome.
-/
import Mathlib

set_option linter.unusedVariables false

/-- RGBA pixel values, packed into a natural number. -/
abbrev Color := Nat

def whiteColor : Color := 0xffffffff

def blackColor : Color := 0xff000000

def redColor : Color := 0xffff0000

/-- Model of `QPixmap`: immutable dimensions plus a pixel function.
Only the pixels with `0 ≤ x < width`, `0 ≤ y < height` are meaningful. -/
structure Pixmap where
  width : Nat
  height : Nat
  pix : Int → Int → Color

instance : Inhabited Pixmap := ⟨⟨0, 0, fun _ _ => 0⟩⟩

/-- `QPixmap(w, h)` followed by `fill(color)`. -/
def Pixmap.filled (w h : Nat) (c : Color) : Pixmap :=
  ⟨w, h, fun _ _ => c⟩

/-- `QPainter(dest).drawPixmap(px, py, src)` for an opaque source pixmap:
inside the source rectangle the destination pixel is replaced by the
source pixel, elsewhere it is untouched.  Writes that would fall outside
the destination are implicitly clipped (the destination dimensions never
change). -/
def Pixmap.drawPixmapAt (dest : Pixmap) (px py : Int) (src : Pixmap) : Pixmap :=
  { dest with
    pix := fun x y =>
      if px ≤ x ∧ x < px + (src.width : Int) ∧ py ≤ y ∧ y < py + (src.height : Int) then
        src.pix (x - px) (y - py)
      else dest.pix x y }

/-- `Page` from src/notebook.py: one canvas pixmap plus the optional
background image path. -/
structure Page where
  canvas : Pixmap
  bg_image : Option String

instance : Inhabited Page := ⟨⟨default, none⟩⟩

/-- `Page.set_background(image_path)` (src/notebook.py lines 21-30).
`bg` is the external decode-and-scale result
`QPixmap(image_path).scaled(w, h, KeepAspectRatioByExpanding, Smooth)`:
`none` when the path cannot be decoded, in which case Qt produces a null
pixmap and `drawPixmap` paints nothing — but `self.bg_image = image_path`
is still executed. -/
def Page.set_background (pg : Page) (image_path : String) (bg : Option Pixmap) : Page :=
  match bg with
  | some b => { canvas := pg.canvas.drawPixmapAt 0 0 b, bg_image := some image_path }
  | none => { canvas := pg.canvas, bg_image := some image_path }

/-- `Page.__init__(w, h, bg_color, bg_image)` (src/notebook.py lines 14-19). -/
def Page.create (w h : Nat) (bg_color : Color) (bg_path : Option String)
    (decoded : Option Pixmap) : Page :=
  let base : Page := { canvas := Pixmap.filled w h bg_color, bg_image := none }
  match bg_path with
  | some p => base.set_background p decoded
  | none => base

/-- `Page.size()`. -/
def Page.pageSize (pg : Page) : Nat × Nat := (pg.canvas.width, pg.canvas.height)

/-- The `undo_stacks` / `redo_stacks` dictionaries, keyed by page index. -/
abbrev StackMap := Int → Option (List Pixmap)

/-- Update one dictionary entry (`none` models a deleted/absent key). -/
def StackMap.upd (m : StackMap) (i : Int) (v : Option (List Pixmap)) : StackMap :=
  fun j => if j = i then v else m j

/-- The mutable state of the `Notebook` main-window object that the core
operations read and write (UI chrome fields are omitted). -/
structure Notebook where
  drawing : Bool
  last_point : Int × Int
  pen_color : Color
  pen_width : Nat
  eraser : Bool
  eyedropper : Bool
  floating_image : Option Pixmap
  floating_pos : Int × Int
  move_mode : Bool
  undo_stacks : StackMap
  redo_stacks : StackMap
  pages : List Page
  current_page_idx : Int

/-- `Notebook.page()` (src/notebook.py lines 167-170). -/
def Notebook.page (s : Notebook) : Option Page :=
  if 0 ≤ s.current_page_idx ∧ s.current_page_idx < (s.pages.length : Int) then
    some (s.pages.getD s.current_page_idx.toNat default)
  else none

/-- The guard of `Notebook.page()`: the current index addresses a page. -/
def Notebook.pageValid (s : Notebook) : Prop :=
  0 ≤ s.current_page_idx ∧ s.current_page_idx < (s.pages.length : Int)

instance (s : Notebook) : Decidable s.pageValid := by
  unfold Notebook.pageValid; infer_instance

/-- The active page's canvas (meaningful when `pageValid` holds). -/
def Notebook.curCanvas (s : Notebook) : Pixmap :=
  ((s.page).getD default).canvas

/-- `Notebook.in_canvas(p)` (src/notebook.py lines 185-189). -/
def Notebook.in_canvas (s : Notebook) (p : Int × Int) : Bool :=
  match s.page with
  | none => false
  | some pg =>
      decide (0 ≤ p.1 ∧ p.1 < (pg.canvas.width : Int) ∧
              0 ≤ p.2 ∧ p.2 < (pg.canvas.height : Int))

/-- `Notebook.ensure_stacks()` (src/notebook.py lines 192-195):
`setdefault` on both dictionaries at the current index. -/
def Notebook.ensure_stacks (s : Notebook) : Notebook :=
  { s with
    undo_stacks :=
      match s.undo_stacks s.current_page_idx with
      | none => s.undo_stacks.upd s.current_page_idx (some [])
      | some _ => s.undo_stacks,
    redo_stacks :=
      match s.redo_stacks s.current_page_idx with
      | none => s.redo_stacks.upd s.current_page_idx (some [])
      | some _ => s.redo_stacks }

/-- `Notebook.snapshot()` (src/notebook.py lines 197-202): push a copy of
the current canvas onto the undo stack, clear the redo stack.  The source
dereferences `self.page()`, so it is only ever invoked with an active
page; the inactive case is modelled as the identity. -/
def Notebook.snapshot (s : Notebook) : Notebook :=
  let t := s.ensure_stacks
  match t.page with
  | none => t
  | some pg =>
    { t with
      undo_stacks := t.undo_stacks.upd t.current_page_idx
        (some (pg.canvas :: (t.undo_stacks t.current_page_idx).getD [])),
      redo_stacks := t.redo_stacks.upd t.current_page_idx (some []) }

/-- `Notebook.undo()` (src/notebook.py lines 204-214). -/
def Notebook.undo (s : Notebook) : Notebook :=
  let t := s.ensure_stacks
  match (t.undo_stacks t.current_page_idx).getD [] with
  | [] => t
  | last :: rest =>
    match t.page with
    | none => t
    | some pg =>
      { t with
        undo_stacks := t.undo_stacks.upd t.current_page_idx (some rest),
        redo_stacks := t.redo_stacks.upd t.current_page_idx
          (some (pg.canvas :: (t.redo_stacks t.current_page_idx).getD [])),
        pages := t.pages.set t.current_page_idx.toNat { pg with canvas := last } }

/-- `Notebook.redo()` (src/notebook.py lines 216-225). -/
def Notebook.redo (s : Notebook) : Notebook :=
  let t := s.ensure_stacks
  match (t.redo_stacks t.current_page_idx).getD [] with
  | [] => t
  | next :: rest =>
    match t.page with
    | none => t
    | some pg =>
      { t with
        redo_stacks := t.redo_stacks.upd t.current_page_idx (some rest),
        undo_stacks := t.undo_stacks.upd t.current_page_idx
          (some (pg.canvas :: (t.undo_stacks t.current_page_idx).getD [])),
        pages := t.pages.set t.current_page_idx.toNat { pg with canvas := next } }

/-- In-place mutation of the active page's canvas through a `QPainter`
(the common pattern of stroke drawing, overlay stamping and background
application). -/
def Notebook.mutateCanvas (f : Pixmap → Pixmap) (s : Notebook) : Notebook :=
  match s.page with
  | none => s
  | some pg =>
    { s with
      pages := s.pages.set s.current_page_idx.toNat { pg with canvas := f pg.canvas } }

/-- One destructive operation in the source's discipline: `snapshot()`
first, then mutate the active canvas (stroke start + segment, overlay
stamp, background change all follow this pattern). -/
def Notebook.destructiveOp (f : Pixmap → Pixmap) (s : Notebook) : Notebook :=
  (s.snapshot).mutateCanvas f

/-- A whole sequence of destructive operations, applied in order. -/
def Notebook.applyOps (fs : List (Pixmap → Pixmap)) (s : Notebook) : Notebook :=
  fs.foldl (fun t f => t.destructiveOp f) s

/-- `undo` iterated `n` times. -/
def Notebook.undoIter : Nat → Notebook → Notebook
  | 0, s => s
  | n + 1, s => Notebook.undoIter n s.undo

/-- `redo` iterated `n` times. -/
def Notebook.redoIter : Nat → Notebook → Notebook
  | 0, s => s
  | n + 1, s => Notebook.redoIter n s.redo

/-- `Notebook.add_page()` (src/notebook.py lines 228-239).  `winW`/`winH`
are `self.width()`/`self.height()` and `toolbarH` the toolbar height;
`decoded` is the external decode result for the inherited background
path. -/
def Notebook.add_page (winW winH toolbarH : Nat) (decoded : Option Pixmap)
    (s : Notebook) : Notebook :=
  let w := max 200 winW
  let h := max 200 (winH - toolbarH)
  let bg := (s.page).bind (fun pg => pg.bg_image)
  let pg := Page.create w h whiteColor bg decoded
  let t := { s with pages := s.pages ++ [pg],
                    current_page_idx := (s.pages.length : Int) }
  (t.ensure_stacks).snapshot

/-- `Notebook.delete_current_page()` (src/notebook.py lines 244-256). -/
def Notebook.delete_current_page (s : Notebook) : Notebook :=
  if s.pages.isEmpty then s
  else
    let idx := s.current_page_idx
    let t := { s with
      pages := s.pages.eraseIdx idx.toNat,
      undo_stacks := s.undo_stacks.upd idx none,
      redo_stacks := s.redo_stacks.upd idx none }
    if t.pages.isEmpty then { t with current_page_idx := -1 }
    else { t with current_page_idx := max 0 (idx - 1) }

/-- `Notebook.change_page(idx)` (src/notebook.py lines 258-261). -/
def Notebook.change_page (idx : Int) (s : Notebook) : Notebook :=
  if 0 ≤ idx ∧ idx < (s.pages.length : Int) then
    { s with current_page_idx := idx }
  else s

/-- `Notebook.set_pen_color(c)` (src/notebook.py lines 271-275). -/
def Notebook.set_pen_color (c : Color) (s : Notebook) : Notebook :=
  { s with pen_color := c, eraser := false, eyedropper := false }

/-- `Notebook.enable_eyedropper()` (src/notebook.py lines 277-280). -/
def Notebook.enable_eyedropper (s : Notebook) : Notebook :=
  { s with eyedropper := true, eraser := false }

/-- `Notebook.toggle_eraser(checked)` (src/notebook.py lines 282-285). -/
def Notebook.toggle_eraser (checked : Bool) (s : Notebook) : Notebook :=
  { s with eraser := checked,
           eyedropper := if checked then false else s.eyedropper }

/-- `Notebook.toggle_eraser_shortcut()` (src/notebook.py lines 287-289);
the checkable action mirrors `self.eraser`. -/
def Notebook.toggle_eraser_shortcut (s : Notebook) : Notebook :=
  s.toggle_eraser (!s.eraser)

/-- `Notebook.set_background_image()` (src/notebook.py lines 291-296).
`fname` is the file-dialog result (`none` on cancel), `decoded` the
external decode-and-scale result for that path. -/
def Notebook.set_background_image (fname : Option String) (decoded : Option Pixmap)
    (s : Notebook) : Notebook :=
  match fname, s.page with
  | some f, some _ =>
    let t := s.snapshot
    match t.page with
    | some pg =>
      { t with
        pages := t.pages.set t.current_page_idx.toNat (pg.set_background f decoded) }
    | none => t
  | _, _ => s

/-- `Notebook.paste_image()` (src/notebook.py lines 333-352).  `clip` is
the clipboard content (`none` when neither a pixmap nor an image is
available, in which case the source shows a warning and returns). -/
def Notebook.paste_image (clip : Option Pixmap) (s : Notebook) : Notebook :=
  match clip with
  | none => s
  | some pm =>
    match s.page with
    | none => s
    | some pg =>
      let w : Int := pg.canvas.width
      let h : Int := pg.canvas.height
      let fx := max 0 ((w - (pm.width : Int)).fdiv 2)
      let fy := max 0 ((h - (pm.height : Int)).fdiv 2)
      { s with floating_image := some pm, floating_pos := (fx, fy), move_mode := true }

/-- `Notebook.toggle_move_mode()` (src/notebook.py lines 354-369).  The
stamping branch dereferences `self.page()`; as for `snapshot`, the
pageless case is modelled by skipping the paint. -/
def Notebook.toggle_move_mode (s : Notebook) : Notebook :=
  match s.floating_image with
  | none => s
  | some ov =>
    if s.move_mode then
      let t := s.snapshot
      match t.page with
      | some pg =>
        { t with
          pages := t.pages.set t.current_page_idx.toNat
            { pg with canvas := pg.canvas.drawPixmapAt s.floating_pos.1 s.floating_pos.2 ov },
          floating_image := none,
          move_mode := false }
      | none => { t with floating_image := none, move_mode := false }
    else { s with move_mode := true }

/-- `Notebook.mousePressEvent(event)` for the left button
(src/notebook.py lines 399-429).  `localPos` is the page-local point
`event.pos() - drawing_rect().topLeft()` computed by the source. -/
def Notebook.mousePressEvent (localPos : Int × Int) (s : Notebook) : Notebook :=
  -- the "normal drawing / eyedropper" section the drag branch falls
  -- through to when the click is not inside the floating image
  let fallthrough : Notebook :=
    if !(s.in_canvas localPos) then s
    else if s.eyedropper && (s.page).isSome then
      match s.page with
      | some pg =>
        { s.set_pen_color (pg.canvas.pix localPos.1 localPos.2) with eyedropper := false }
      | none => s
    else
      match s.page, s.floating_image, s.move_mode with
      | some _, none, false =>
        ({ s with drawing := true, last_point := localPos }).snapshot
      | _, _, _ => s
  match s.floating_image with
  | some ov =>
    if s.move_mode then
      let relX := localPos.1 - s.floating_pos.1
      let relY := localPos.2 - s.floating_pos.2
      if 0 ≤ relX ∧ relX < (ov.width : Int) ∧ 0 ≤ relY ∧ relY < (ov.height : Int) then
        { s with drawing := true, last_point := localPos }
      else fallthrough
    else fallthrough
  | none => fallthrough

/-- `Notebook.mouseMoveEvent(event)` (src/notebook.py lines 431-461).
`leftHeld` is `event.buttons() & Qt.LeftButton`; `drawLine` is the
external antialiased rasterizer
`drawLine canvas p0 p1 color width` for `QPainter.drawLine`. -/
def Notebook.mouseMoveEvent
    (drawLine : Pixmap → Int × Int → Int × Int → Color → Nat → Pixmap)
    (localPos : Int × Int) (leftHeld : Bool) (s : Notebook) : Notebook :=
  match s.page with
  | none => s
  | some pg =>
    match s.floating_image with
    | some ov =>
      if s.move_mode && s.drawing then
        let dx := localPos.1 - s.last_point.1
        let dy := localPos.2 - s.last_point.2
        let px := s.floating_pos.1 + dx
        let py := s.floating_pos.2 + dy
        let w : Int := pg.canvas.width
        let h : Int := pg.canvas.height
        { s with
          floating_pos := (max 0 (min px (w - (ov.width : Int))),
                           max 0 (min py (h - (ov.height : Int)))),
          last_point := localPos }
      else s
    | none =>
      if s.drawing && leftHeld && !s.move_mode then
        if !(s.in_canvas localPos) then s
        else
          let color := if s.eraser then whiteColor else s.pen_color
          { s.mutateCanvas (fun c => drawLine c s.last_point localPos color s.pen_width) with
            last_point := localPos }
      else s

/-- `Notebook.mouseReleaseEvent(event)` for the left button
(src/notebook.py lines 463-465). -/
def Notebook.mouseReleaseEvent (s : Notebook) : Notebook :=
  { s with drawing := false }

/-- `Notebook.__init__()` (src/notebook.py lines 44-85): initial field
values followed by the first `add_page()`. -/
def Notebook.init (winW winH toolbarH : Nat) (decoded : Option Pixmap) : Notebook :=
  let s : Notebook :=
    { drawing := false
      last_point := (0, 0)
      pen_color := blackColor
      pen_width := 5
      eraser := false
      eyedropper := false
      floating_image := none
      floating_pos := (100, 100)
      move_mode := false
      undo_stacks := fun _ => none
      redo_stacks := fun _ => none
      pages := []
      current_page_idx := -1 }
  s.add_page winW winH toolbarH decoded

/-- The discrete user events that drive the application (toolbar
actions, shortcuts, page-panel buttons and pointer events); external
collaborator results travel with the event. -/
inductive Event where
  | setPenColor (c : Color)
  | enableEyedropper
  | toggleEraser (checked : Bool)
  | toggleEraserShortcut
  | setPenWidth (v : Nat)
  | setBackgroundImage (fname : Option String) (decoded : Option Pixmap)
  | addPage (winW winH toolbarH : Nat) (decoded : Option Pixmap)
  | deletePage
  | changePage (idx : Int)
  | undoEvt
  | redoEvt
  | paste (clip : Option Pixmap)
  | toggleMoveMode
  | press (localPos : Int × Int)
  | move (localPos : Int × Int) (leftHeld : Bool)
  | release

/-- Dispatch one event to the corresponding handler. -/
def stepEvent (drawLine : Pixmap → Int × Int → Int × Int → Color → Nat → Pixmap)
    (e : Event) (s : Notebook) : Notebook :=
  match e with
  | Event.setPenColor c => s.set_pen_color c
  | Event.enableEyedropper => s.enable_eyedropper
  | Event.toggleEraser b => s.toggle_eraser b
  | Event.toggleEraserShortcut => s.toggle_eraser_shortcut
  | Event.setPenWidth v => { s with pen_width := v }
  | Event.setBackgroundImage fname decoded => s.set_background_image fname decoded
  | Event.addPage w h t decoded => s.add_page w h t decoded
  | Event.deletePage => s.delete_current_page
  | Event.changePage i => s.change_page i
  | Event.undoEvt => s.undo
  | Event.redoEvt => s.redo
  | Event.paste clip => s.paste_image clip
  | Event.toggleMoveMode => s.toggle_move_mode
  | Event.press p => s.mousePressEvent p
  | Event.move p held => s.mouseMoveEvent drawLine p held
  | Event.release => s.mouseReleaseEvent

/-- States the application can actually be in: the freshly constructed
window, closed under all events. -/
inductive Reachable (drawLine : Pixmap → Int × Int → Int × Int → Color → Nat → Pixmap) :
    Notebook → Prop where
  | init : ∀ winW winH toolbarH decoded,
      Reachable drawLine (Notebook.init winW winH toolbarH decoded)
  | step : ∀ s e, Reachable drawLine s → Reachable drawLine (stepEvent drawLine e s)

/-! ### Basic lemmas about the embedding -/

attribute [ext] Pixmap Page Notebook

theorem StackMap.upd_same (m : StackMap) (i : Int) (v : Option (List Pixmap)) :
    m.upd i v i = v := by
  simp [StackMap.upd]

theorem StackMap.upd_ne (m : StackMap) {i j : Int} (v : Option (List Pixmap)) (h : j ≠ i) :
    m.upd i v j = m j := by
  simp [StackMap.upd, h]

theorem StackMap.upd_upd (m : StackMap) (i : Int) (v w : Option (List Pixmap)) :
    (m.upd i v).upd i w = m.upd i w := by
  funext j
  by_cases h : j = i <;> simp [StackMap.upd, h]

theorem getD_set_self_of_lt {α : Type _} (l : List α) (i : Nat) (a d : α)
    (h : i < l.length) : (l.set i a).getD i d = a := by
  rw [List.getD_eq_getElem?_getD, List.getElem?_set_self', List.getElem?_eq_getElem h]
  rfl

theorem getD_eq_getElem_of_lt {α : Type _} (l : List α) (i : Nat) (d : α)
    (h : i < l.length) : l.getD i d = l[i] := by
  rw [List.getD_eq_getElem?_getD, List.getElem?_eq_getElem h]
  rfl

theorem set_getElem_self_eq {α : Type _} (l : List α) (i : Nat) (h : i < l.length) :
    l.set i l[i] = l := by
  apply List.ext_getElem
  · simp
  · intro n h1 h2
    rcases eq_or_ne n i with rfl | hne
    · rw [List.getElem_set_self]
    · rw [List.getElem_set_ne (by omega)]

theorem set_getD_self_eq {α : Type _} (l : List α) (i : Nat) (d : α) (h : i < l.length) :
    l.set i (l.getD i d) = l := by
  rw [getD_eq_getElem_of_lt l i d h, set_getElem_self_eq l i h]

theorem getLastD_concat_eq {α : Type _} (l : List α) (a d : α) :
    (l ++ [a]).getLastD d = a := by
  induction l generalizing d with
  | nil => rfl
  | cons x xs ih => rw [List.cons_append, List.getLastD_cons, ih]

/-! ### A normal form for the history-carrying states

`mkState b c u r` is the state `b` with the active page's canvas replaced
by `c` and the active page's stacks set to `u` and `r`.  All the history
operations stay inside this shape, which makes the undo/redo algebra
(claims about §4.3 of the spec) provable by induction. -/

def Notebook.mkState (b : Notebook) (c : Pixmap) (u r : List Pixmap) : Notebook :=
  { b with
    pages := b.pages.set b.current_page_idx.toNat
      { b.pages.getD b.current_page_idx.toNat default with canvas := c },
    undo_stacks := b.undo_stacks.upd b.current_page_idx (some u),
    redo_stacks := b.redo_stacks.upd b.current_page_idx (some r) }

theorem Notebook.pageValid_toNat_lt {s : Notebook} (hv : s.pageValid) :
    s.current_page_idx.toNat < s.pages.length := by
  rcases hv with ⟨h0, h1⟩
  omega

theorem Notebook.page_eq_some {s : Notebook} (hv : s.pageValid) :
    s.page = some (s.pages.getD s.current_page_idx.toNat default) := by
  rcases hv with ⟨h0, h1⟩
  rw [Notebook.page, if_pos ⟨h0, h1⟩]

theorem Notebook.mkState_pageValid {b : Notebook} (hv : b.pageValid)
    (c : Pixmap) (u r : List Pixmap) : (b.mkState c u r).pageValid := by
  rcases hv with ⟨h0, h1⟩
  exact ⟨h0, by simpa [Notebook.mkState] using h1⟩

theorem Notebook.mkState_page {b : Notebook} (hv : b.pageValid)
    (c : Pixmap) (u r : List Pixmap) :
    (b.mkState c u r).page =
      some { b.pages.getD b.current_page_idx.toNat default with canvas := c } := by
  rw [Notebook.page_eq_some (Notebook.mkState_pageValid hv c u r)]
  simp only [Notebook.mkState]
  rw [getD_set_self_of_lt _ _ _ _ (Notebook.pageValid_toNat_lt hv)]

theorem Notebook.mkState_curCanvas {b : Notebook} (hv : b.pageValid)
    (c : Pixmap) (u r : List Pixmap) : (b.mkState c u r).curCanvas = c := by
  rw [Notebook.curCanvas, Notebook.mkState_page hv]
  rfl

theorem Notebook.mkState_undo_stacks (b : Notebook) (c : Pixmap) (u r : List Pixmap) :
    (b.mkState c u r).undo_stacks (b.mkState c u r).current_page_idx = some u := by
  simp [Notebook.mkState, StackMap.upd_same]

theorem Notebook.mkState_redo_stacks (b : Notebook) (c : Pixmap) (u r : List Pixmap) :
    (b.mkState c u r).redo_stacks (b.mkState c u r).current_page_idx = some r := by
  simp [Notebook.mkState, StackMap.upd_same]

theorem Notebook.ensure_stacks_eq_self {s : Notebook}
    (hu : (s.undo_stacks s.current_page_idx).isSome)
    (hr : (s.redo_stacks s.current_page_idx).isSome) : s.ensure_stacks = s := by
  rcases hu' : s.undo_stacks s.current_page_idx with _ | u
  · rw [hu'] at hu; exact absurd hu (by simp)
  rcases hr' : s.redo_stacks s.current_page_idx with _ | r
  · rw [hr'] at hr; exact absurd hr (by simp)
  rw [Notebook.ensure_stacks, hu', hr']

theorem Notebook.ensure_stacks_mkState (b : Notebook) (c : Pixmap) (u r : List Pixmap) :
    (b.mkState c u r).ensure_stacks = b.mkState c u r :=
  Notebook.ensure_stacks_eq_self
    (by rw [Notebook.mkState_undo_stacks]; rfl)
    (by rw [Notebook.mkState_redo_stacks]; rfl)

theorem Notebook.curCanvas_eq {s : Notebook} (hv : s.pageValid) :
    s.curCanvas = (s.pages.getD s.current_page_idx.toNat default).canvas := by
  rw [Notebook.curCanvas, Notebook.page_eq_some hv]
  rfl

theorem Notebook.snapshot_mkState {b : Notebook} (hv : b.pageValid)
    (c : Pixmap) (u r : List Pixmap) :
    (b.mkState c u r).snapshot = b.mkState c (c :: u) [] := by
  have hp := Notebook.mkState_page hv c u r
  have hu := Notebook.mkState_undo_stacks b c u r
  simp only [Notebook.snapshot, Notebook.ensure_stacks_mkState, hp, hu]
  ext <;> simp [Notebook.mkState, StackMap.upd_upd, StackMap.upd_same, hu]

theorem Notebook.mutateCanvas_mkState {b : Notebook} (hv : b.pageValid)
    (f : Pixmap → Pixmap) (c : Pixmap) (u r : List Pixmap) :
    (b.mkState c u r).mutateCanvas f = b.mkState (f c) u r := by
  have hp := Notebook.mkState_page hv c u r
  simp only [Notebook.mutateCanvas, hp]
  ext <;> simp [Notebook.mkState, List.set_set]

theorem Notebook.undo_mkState_nil {b : Notebook} (c : Pixmap) (r : List Pixmap) :
    (b.mkState c [] r).undo = b.mkState c [] r := by
  have hu := Notebook.mkState_undo_stacks b c [] r
  simp only [Notebook.undo, Notebook.ensure_stacks_mkState, hu, Option.getD_some]

theorem Notebook.undo_mkState_cons {b : Notebook} (hv : b.pageValid)
    (c a : Pixmap) (u r : List Pixmap) :
    (b.mkState c (a :: u) r).undo = b.mkState a u (c :: r) := by
  have hp := Notebook.mkState_page hv c (a :: u) r
  have hu := Notebook.mkState_undo_stacks b c (a :: u) r
  have hr := Notebook.mkState_redo_stacks b c (a :: u) r
  simp only [Notebook.undo, Notebook.ensure_stacks_mkState, hp, hu, hr, Option.getD_some]
  ext <;> simp [Notebook.mkState, StackMap.upd_upd, StackMap.upd_same, List.set_set, hr]

theorem Notebook.redo_mkState_nil {b : Notebook} (c : Pixmap) (u : List Pixmap) :
    (b.mkState c u []).redo = b.mkState c u [] := by
  have hr := Notebook.mkState_redo_stacks b c u []
  simp only [Notebook.redo, Notebook.ensure_stacks_mkState, hr, Option.getD_some]

theorem Notebook.redo_mkState_cons {b : Notebook} (hv : b.pageValid)
    (c a : Pixmap) (u r : List Pixmap) :
    (b.mkState c u (a :: r)).redo = b.mkState a (c :: u) r := by
  have hp := Notebook.mkState_page hv c u (a :: r)
  have hu := Notebook.mkState_undo_stacks b c u (a :: r)
  have hr := Notebook.mkState_redo_stacks b c u (a :: r)
  simp only [Notebook.redo, Notebook.ensure_stacks_mkState, hp, hu, hr, Option.getD_some]
  ext <;> simp [Notebook.mkState, StackMap.upd_upd, StackMap.upd_same, List.set_set, hu]

theorem StackMap.upd_lookup (m : StackMap) (i : Int) : m.upd i (m i) = m := by
  funext j
  by_cases h : j = i <;> simp [StackMap.upd, h]

theorem Notebook.ensure_eq_mkState {s : Notebook} (hv : s.pageValid) :
    s.ensure_stacks =
      s.mkState s.curCanvas
        ((s.undo_stacks s.current_page_idx).getD [])
        ((s.redo_stacks s.current_page_idx).getD []) := by
  have hlt := Notebook.pageValid_toNat_lt hv
  have hpages : s.pages.set s.current_page_idx.toNat
      { s.pages.getD s.current_page_idx.toNat default with canvas := s.curCanvas } =
      s.pages := by
    rw [Notebook.curCanvas_eq hv]
    exact set_getD_self_eq s.pages _ default hlt
  have hund : (s.ensure_stacks).undo_stacks =
      s.undo_stacks.upd s.current_page_idx
        (some ((s.undo_stacks s.current_page_idx).getD [])) := by
    rcases hu : s.undo_stacks s.current_page_idx with _ | u
    · simp [Notebook.ensure_stacks, hu]
    · simp only [Notebook.ensure_stacks, hu, Option.getD_some]
      conv_lhs => rw [← StackMap.upd_lookup s.undo_stacks s.current_page_idx, hu]
  have hred : (s.ensure_stacks).redo_stacks =
      s.redo_stacks.upd s.current_page_idx
        (some ((s.redo_stacks s.current_page_idx).getD [])) := by
    rcases hr : s.redo_stacks s.current_page_idx with _ | r
    · simp [Notebook.ensure_stacks, hr]
    · simp only [Notebook.ensure_stacks, hr, Option.getD_some]
      conv_lhs => rw [← StackMap.upd_lookup s.redo_stacks s.current_page_idx, hr]
  have hsplit : s.ensure_stacks =
      { s with undo_stacks := (s.ensure_stacks).undo_stacks,
               redo_stacks := (s.ensure_stacks).redo_stacks } := rfl
  rw [hsplit, hund, hred, Notebook.mkState, hpages]

theorem Notebook.ensure_stacks_idem (s : Notebook) :
    (s.ensure_stacks).ensure_stacks = s.ensure_stacks := by
  apply Notebook.ensure_stacks_eq_self
  · rcases hu : s.undo_stacks s.current_page_idx with _ | u <;>
      simp [Notebook.ensure_stacks, hu, StackMap.upd_same]
  · rcases hr : s.redo_stacks s.current_page_idx with _ | r <;>
      simp [Notebook.ensure_stacks, hr, StackMap.upd_same]

theorem Notebook.snapshot_ensure (s : Notebook) :
    (s.ensure_stacks).snapshot = s.snapshot := by
  simp only [Notebook.snapshot, Notebook.ensure_stacks_idem]

theorem Notebook.snapshot_eq_mkState {s : Notebook} (hv : s.pageValid) :
    s.snapshot =
      s.mkState s.curCanvas (s.curCanvas :: (s.undo_stacks s.current_page_idx).getD []) [] := by
  rw [← Notebook.snapshot_ensure, Notebook.ensure_eq_mkState hv,
    Notebook.snapshot_mkState hv]

/-! ### The undo/redo algebra (spec §4.3, §8) -/

/-- The canvas after a list of destructive operations, applied in order. -/
def chainApply (fs : List (Pixmap → Pixmap)) (c : Pixmap) : Pixmap :=
  fs.foldl (fun a f => f a) c

/-- The pre-operation canvases recorded by the snapshots of a run of
destructive operations, most recent first. -/
def trailRev : List (Pixmap → Pixmap) → Pixmap → List Pixmap
  | [], _ => []
  | f :: fs, c => trailRev fs (f c) ++ [c]

theorem chainApply_cons (f : Pixmap → Pixmap) (fs : List (Pixmap → Pixmap)) (c : Pixmap) :
    chainApply (f :: fs) c = chainApply fs (f c) := rfl

theorem trailRev_cons (f : Pixmap → Pixmap) (fs : List (Pixmap → Pixmap)) (c : Pixmap) :
    trailRev (f :: fs) c = trailRev fs (f c) ++ [c] := rfl

theorem trailRev_length (fs : List (Pixmap → Pixmap)) (c : Pixmap) :
    (trailRev fs c).length = fs.length := by
  induction fs generalizing c with
  | nil => rfl
  | cons f fs ih => simp [trailRev, ih]

theorem Notebook.applyOps_nil (s : Notebook) : s.applyOps [] = s := rfl

theorem Notebook.applyOps_cons (s : Notebook) (f : Pixmap → Pixmap)
    (fs : List (Pixmap → Pixmap)) :
    s.applyOps (f :: fs) = (s.destructiveOp f).applyOps fs := rfl

theorem Notebook.destructiveOp_mkState {b : Notebook} (hv : b.pageValid)
    (f : Pixmap → Pixmap) (c : Pixmap) (u r : List Pixmap) :
    (b.mkState c u r).destructiveOp f = b.mkState (f c) (c :: u) [] := by
  rw [Notebook.destructiveOp, Notebook.snapshot_mkState hv, Notebook.mutateCanvas_mkState hv]

theorem Notebook.destructiveOp_eq_mkState {s : Notebook} (hv : s.pageValid)
    (f : Pixmap → Pixmap) :
    s.destructiveOp f =
      s.mkState (f s.curCanvas)
        (s.curCanvas :: (s.undo_stacks s.current_page_idx).getD []) [] := by
  rw [Notebook.destructiveOp, Notebook.snapshot_eq_mkState hv, Notebook.mutateCanvas_mkState hv]

theorem Notebook.applyOps_mkState {b : Notebook} (hv : b.pageValid)
    (fs : List (Pixmap → Pixmap)) (c : Pixmap) (u r : List Pixmap) :
    (b.mkState c u r).applyOps fs =
      b.mkState (chainApply fs c) (trailRev fs c ++ u)
        (if fs.isEmpty then r else []) := by
  induction fs generalizing c u r with
  | nil => simp [Notebook.applyOps_nil, trailRev, chainApply]
  | cons f fs ih =>
    rw [Notebook.applyOps_cons, Notebook.destructiveOp_mkState hv, ih,
      chainApply_cons, trailRev_cons]
    simp [List.append_assoc]

theorem Notebook.undoIter_mkState {b : Notebook} (hv : b.pageValid)
    (t : List Pixmap) (c : Pixmap) (u r : List Pixmap) :
    Notebook.undoIter t.length (b.mkState c (t ++ u) r) =
      b.mkState (t.getLastD c) u ((c :: t).dropLast.reverse ++ r) := by
  induction t generalizing c r with
  | nil => simp [Notebook.undoIter]
  | cons a t ih =>
    rw [List.length_cons]
    show Notebook.undoIter t.length (b.mkState c (a :: t ++ u) r).undo = _
    rw [show a :: t ++ u = a :: (t ++ u) from rfl, Notebook.undo_mkState_cons hv, ih,
      List.getLastD_cons, List.dropLast_cons₂, List.reverse_cons]
    simp [List.append_assoc]

theorem Notebook.redoIter_mkState {b : Notebook} (hv : b.pageValid)
    (q : List Pixmap) (c : Pixmap) (u r : List Pixmap) :
    Notebook.redoIter q.length (b.mkState c u (q ++ r)) =
      b.mkState (q.getLastD c) ((c :: q).dropLast.reverse ++ u) r := by
  induction q generalizing c u with
  | nil => simp [Notebook.redoIter]
  | cons a q ih =>
    rw [List.length_cons]
    show Notebook.redoIter q.length (b.mkState c u (a :: q ++ r)).redo = _
    rw [show a :: q ++ r = a :: (q ++ r) from rfl, Notebook.redo_mkState_cons hv, ih,
      List.getLastD_cons, List.dropLast_cons₂, List.reverse_cons]
    simp [List.append_assoc]

/-- C2: for every page and every sequence of n destructive operations
O1..On on it (each preceded by exactly one snapshot), undoing n times
yields a buffer bit-identical to the buffer before O1, and redoing n
times after that restores the state after On exactly. -/
theorem undo_redo_inverse_law (s : Notebook) (fs : List (Pixmap → Pixmap))
    (hv : s.pageValid) :
    (Notebook.undoIter fs.length (s.applyOps fs)).curCanvas = s.curCanvas ∧
    Notebook.redoIter fs.length (Notebook.undoIter fs.length (s.applyOps fs)) =
      s.applyOps fs := by
  cases fs with
  | nil => exact ⟨rfl, rfl⟩
  | cons f fs =>
    set c0 := s.curCanvas with hc0
    set u0 := (s.undo_stacks s.current_page_idx).getD [] with hu0
    set X := trailRev fs (f c0) with hX
    set cN := chainApply fs (f c0) with hcN
    have happly : s.applyOps (f :: fs) = s.mkState cN ((X ++ [c0]) ++ u0) [] := by
      rw [Notebook.applyOps_cons, Notebook.destructiveOp_eq_mkState hv,
        Notebook.applyOps_mkState hv]
      simp [← hX, ← hcN, List.append_assoc]
    have hlen1 : (f :: fs).length = (X ++ [c0]).length := by
      simp [hX, trailRev_length]
    have hundo : Notebook.undoIter (f :: fs).length (s.applyOps (f :: fs)) =
        s.mkState c0 u0 ((cN :: (X ++ [c0])).dropLast.reverse) := by
      rw [happly, hlen1, Notebook.undoIter_mkState hv, getLastD_concat_eq]
      simp
    set R := (cN :: (X ++ [c0])).dropLast.reverse with hRdef
    have hR : R = X.reverse ++ [cN] := by
      rw [hRdef, show cN :: (X ++ [c0]) = (cN :: X) ++ [c0] from rfl,
        List.dropLast_concat, List.reverse_cons]
    have hlen2 : (f :: fs).length = R.length := by
      simp [hR, hX, trailRev_length]
    constructor
    · rw [hundo, Notebook.mkState_curCanvas hv]
    · rw [hundo, show s.mkState c0 u0 R = s.mkState c0 u0 (R ++ []) from by simp,
        hlen2, Notebook.redoIter_mkState hv, hR, getLastD_concat_eq,
        show c0 :: (X.reverse ++ [cN]) = (c0 :: X.reverse) ++ [cN] from rfl,
        List.dropLast_concat, List.reverse_cons, List.reverse_reverse, happly]

/-- A concrete session state: one white 100x100 page, index 0, no
stacks materialised yet. -/
def sampleNotebook : Notebook :=
  { drawing := false
    last_point := (0, 0)
    pen_color := blackColor
    pen_width := 5
    eraser := false
    eyedropper := false
    floating_image := none
    floating_pos := (100, 100)
    move_mode := false
    undo_stacks := fun _ => none
    redo_stacks := fun _ => none
    pages := [{ canvas := Pixmap.filled 100 100 whiteColor, bg_image := none }]
    current_page_idx := 0 }

theorem undo_redo_inverse_law_witness :
    sampleNotebook.pageValid ∧
    ((Notebook.undoIter 1
        (sampleNotebook.applyOps [fun _ => Pixmap.filled 100 100 redColor])).curCanvas =
      sampleNotebook.curCanvas ∧
     Notebook.redoIter 1 (Notebook.undoIter 1
        (sampleNotebook.applyOps [fun _ => Pixmap.filled 100 100 redColor])) =
      sampleNotebook.applyOps [fun _ => Pixmap.filled 100 100 redColor]) :=
  ⟨⟨by decide, by decide⟩,
   undo_redo_inverse_law sampleNotebook [fun _ => Pixmap.filled 100 100 redColor]
     ⟨by decide, by decide⟩⟩

/-! ### Redo invalidation (C6) -/

theorem Notebook.undo_pageValid {s : Notebook} (hv : s.pageValid) : s.undo.pageValid := by
  rw [Notebook.undo]
  split
  · exact hv
  · split
    · exact hv
    · rcases hv with ⟨h1, h2⟩
      exact ⟨h1, by simpa using h2⟩

/-- C6: the snapshot taken by any new destructive operation performed
after an undo empties that page's redo stack, and the next redo call is
then a no-op: it returns the state completely unchanged. -/
theorem snapshot_clears_redo_and_redo_noop (s : Notebook) (f : Pixmap → Pixmap)
    (hv : s.pageValid) :
    ((s.undo.destructiveOp f).redo_stacks (s.undo.destructiveOp f).current_page_idx =
      some []) ∧
    (s.undo.destructiveOp f).redo = s.undo.destructiveOp f := by
  have hv' : s.undo.pageValid := Notebook.undo_pageValid hv
  rw [Notebook.destructiveOp_eq_mkState hv']
  exact ⟨Notebook.mkState_redo_stacks _ _ _ _, Notebook.redo_mkState_nil _ _⟩

theorem snapshot_clears_redo_and_redo_noop_witness :
    sampleNotebook.pageValid ∧
    ((sampleNotebook.undo.destructiveOp fun _ => Pixmap.filled 100 100 redColor).redo_stacks
        (sampleNotebook.undo.destructiveOp
          fun _ => Pixmap.filled 100 100 redColor).current_page_idx = some []) ∧
    (sampleNotebook.undo.destructiveOp fun _ => Pixmap.filled 100 100 redColor).redo =
      sampleNotebook.undo.destructiveOp fun _ => Pixmap.filled 100 100 redColor :=
  ⟨⟨by decide, by decide⟩,
   snapshot_clears_redo_and_redo_noop sampleNotebook _ ⟨by decide, by decide⟩⟩

/-! ### Overlay commit (C4) -/

/-- C4: committing the overlay from the Placed state (move mode on)
pushes a snapshot of the pre-blit buffer onto the undo stack, blits the
overlay at its current position into the buffer, destroys the overlay and
leaves move mode off. -/
theorem commit_overlay_stamps_and_clears (s : Notebook) (ov : Pixmap)
    (hov : s.floating_image = some ov) (hm : s.move_mode = true)
    (hv : s.pageValid) :
    s.toggle_move_mode =
      { s.mkState (s.curCanvas.drawPixmapAt s.floating_pos.1 s.floating_pos.2 ov)
          (s.curCanvas :: (s.undo_stacks s.current_page_idx).getD []) [] with
        floating_image := none, move_mode := false } := by
  have hv' : s.snapshot.pageValid := by
    rw [Notebook.snapshot_eq_mkState hv]
    exact Notebook.mkState_pageValid hv _ _ _
  simp only [Notebook.toggle_move_mode, hov, hm, if_true,
    Notebook.snapshot_eq_mkState hv, Notebook.mkState_page hv]
  ext <;> simp [Notebook.mkState, List.set_set, StackMap.upd_upd]

/-- The committed-scenario state: 20x20 opaque red overlay placed at
(45, 45) over the 100x100 white page, move mode on. -/
def placedOverlayNotebook : Notebook :=
  { sampleNotebook with
    floating_image := some (Pixmap.filled 20 20 redColor)
    floating_pos := (45, 45)
    move_mode := true }

theorem commit_overlay_stamps_and_clears_witness :
    (placedOverlayNotebook.toggle_move_mode).floating_image = none ∧
    (placedOverlayNotebook.toggle_move_mode).move_mode = false ∧
    (placedOverlayNotebook.toggle_move_mode).undo_stacks 0 =
      some [Pixmap.filled 100 100 whiteColor] ∧
    (∀ x y : Int, 45 ≤ x → x < 65 → 45 ≤ y → y < 65 →
      (placedOverlayNotebook.toggle_move_mode).curCanvas.pix x y = redColor) ∧
    (∀ x y : Int, 0 ≤ x → x < 100 → 0 ≤ y → y < 100 →
      ¬(45 ≤ x ∧ x < 65 ∧ 45 ≤ y ∧ y < 65) →
      (placedOverlayNotebook.toggle_move_mode).curCanvas.pix x y = whiteColor) := by
  have h := commit_overlay_stamps_and_clears placedOverlayNotebook
    (Pixmap.filled 20 20 redColor) rfl rfl ⟨by decide, by decide⟩
  rw [h]
  refine ⟨rfl, rfl, rfl, ?_, ?_⟩
  · intro x y h1 h2 h3 h4
    show (Pixmap.drawPixmapAt _ 45 45 _).pix x y = redColor
    simp only [Pixmap.drawPixmapAt]
    rw [if_pos (by push_cast [Pixmap.filled]; omega)]
    rfl
  · intro x y h1 h2 h3 h4 hn
    show (Pixmap.drawPixmapAt _ 45 45 _).pix x y = whiteColor
    simp only [Pixmap.drawPixmapAt]
    rw [if_neg (by push_cast [Pixmap.filled]; omega)]
    rfl

/-! ### Overlay drag clamp (C5) -/

/-- C5: every drag-update event leaves the overlay origin clamped into
the page: both coordinates are nonnegative; when the overlay fits on an
axis the coordinate is at most page extent minus overlay extent, and when
the overlay exceeds the page on an axis that coordinate is exactly 0 —
regardless of the pointer delta. -/
theorem overlay_drag_clamped
    (drawLine : Pixmap → Int × Int → Int × Int → Color → Nat → Pixmap)
    (s : Notebook) (localPos : Int × Int) (leftHeld : Bool) (pg : Page) (ov : Pixmap)
    (hpg : s.page = some pg) (hov : s.floating_image = some ov)
    (hm : s.move_mode = true) (hd : s.drawing = true) :
    (0 ≤ (s.mouseMoveEvent drawLine localPos leftHeld).floating_pos.1 ∧
     0 ≤ (s.mouseMoveEvent drawLine localPos leftHeld).floating_pos.2) ∧
    ((ov.width ≤ pg.canvas.width →
      (s.mouseMoveEvent drawLine localPos leftHeld).floating_pos.1 ≤
        (pg.canvas.width : Int) - ov.width) ∧
     (ov.height ≤ pg.canvas.height →
      (s.mouseMoveEvent drawLine localPos leftHeld).floating_pos.2 ≤
        (pg.canvas.height : Int) - ov.height)) ∧
    ((pg.canvas.width < ov.width →
      (s.mouseMoveEvent drawLine localPos leftHeld).floating_pos.1 = 0) ∧
     (pg.canvas.height < ov.height →
      (s.mouseMoveEvent drawLine localPos leftHeld).floating_pos.2 = 0)) := by
  simp only [Notebook.mouseMoveEvent, hpg, hov, hm, hd, Bool.and_self, if_true]
  refine ⟨⟨le_max_left 0 _, le_max_left 0 _⟩, ⟨?_, ?_⟩, ⟨?_, ?_⟩⟩ <;>
    intro hle <;>
    · simp only [max_def, min_def]
      split_ifs <;> omega

/-- A trivial stand-in rasterizer (used only to instantiate the external
`drawLine` parameter at concrete inputs). -/
def dlKeep : Pixmap → Int × Int → Int × Int → Color → Nat → Pixmap :=
  fun c _ _ _ _ => c

theorem overlay_drag_clamped_witness :
    ({ placedOverlayNotebook with drawing := true } : Notebook).page =
      some { canvas := Pixmap.filled 100 100 whiteColor, bg_image := none } ∧
    ((0 ≤ (({ placedOverlayNotebook with drawing := true } : Notebook).mouseMoveEvent
        dlKeep (500, -500) true).floating_pos.1 ∧
      0 ≤ (({ placedOverlayNotebook with drawing := true } : Notebook).mouseMoveEvent
        dlKeep (500, -500) true).floating_pos.2) ∧
     ((20 ≤ 100 →
       (({ placedOverlayNotebook with drawing := true } : Notebook).mouseMoveEvent
         dlKeep (500, -500) true).floating_pos.1 ≤ (100 : Int) - 20) ∧
      (20 ≤ 100 →
       (({ placedOverlayNotebook with drawing := true } : Notebook).mouseMoveEvent
         dlKeep (500, -500) true).floating_pos.2 ≤ (100 : Int) - 20)) ∧
     ((100 < 20 →
       (({ placedOverlayNotebook with drawing := true } : Notebook).mouseMoveEvent
         dlKeep (500, -500) true).floating_pos.1 = 0) ∧
      (100 < 20 →
       (({ placedOverlayNotebook with drawing := true } : Notebook).mouseMoveEvent
         dlKeep (500, -500) true).floating_pos.2 = 0))) :=
  ⟨rfl,
   overlay_drag_clamped dlKeep { placedOverlayNotebook with drawing := true }
     (500, -500) true _ (Pixmap.filled 20 20 redColor) rfl rfl rfl rfl⟩

/-! ### Paste (C7) -/

/-- C7: pasting with no usable clipboard image or no active page is a
no-op; otherwise the overlay becomes the pasted image, positioned by
centering it on the active page (clamped at 0 for oversized images), and
move mode turns on; when the image fits, the position is exactly the
centering offset. -/
theorem paste_image_spec (s : Notebook) :
    (s.paste_image none = s) ∧
    (∀ pm : Pixmap, s.page = none → s.paste_image (some pm) = s) ∧
    (∀ (pm : Pixmap) (pg : Page), s.page = some pg →
      s.paste_image (some pm) =
        { s with
          floating_image := some pm,
          floating_pos :=
            (max 0 (((pg.canvas.width : Int) - (pm.width : Int)).fdiv 2),
             max 0 (((pg.canvas.height : Int) - (pm.height : Int)).fdiv 2)),
          move_mode := true }) ∧
    (∀ (pm : Pixmap) (pg : Page), s.page = some pg →
      pm.width ≤ pg.canvas.width → pm.height ≤ pg.canvas.height →
      (s.paste_image (some pm)).floating_pos =
        (((pg.canvas.width : Int) - (pm.width : Int)).fdiv 2,
         ((pg.canvas.height : Int) - (pm.height : Int)).fdiv 2)) := by
  refine ⟨rfl, ?_, ?_, ?_⟩
  · intro pm hpg
    simp only [Notebook.paste_image, hpg]
  · intro pm pg hpg
    simp only [Notebook.paste_image, hpg]
  · intro pm pg hpg hw hh
    simp only [Notebook.paste_image, hpg]
    have h1 : (0 : Int) ≤ ((pg.canvas.width : Int) - (pm.width : Int)).fdiv 2 :=
      Int.fdiv_nonneg (by omega) (by omega)
    have h2 : (0 : Int) ≤ ((pg.canvas.height : Int) - (pm.height : Int)).fdiv 2 :=
      Int.fdiv_nonneg (by omega) (by omega)
    rw [max_eq_right h1, max_eq_right h2]

theorem paste_image_spec_witness :
    sampleNotebook.page =
      some { canvas := Pixmap.filled 100 100 whiteColor, bg_image := none } ∧
    (sampleNotebook.paste_image (some (Pixmap.filled 20 20 redColor))).floating_pos =
      (40, 40) ∧
    (sampleNotebook.paste_image (some (Pixmap.filled 20 20 redColor))).floating_image =
      some (Pixmap.filled 20 20 redColor) ∧
    (sampleNotebook.paste_image (some (Pixmap.filled 20 20 redColor))).move_mode = true := by
  have h := (paste_image_spec sampleNotebook).2.2.2 (Pixmap.filled 20 20 redColor)
    { canvas := Pixmap.filled 100 100 whiteColor, bg_image := none }
    rfl (by decide) (by decide)
  refine ⟨rfl, ?_, rfl, rfl⟩
  rw [h]
  decide

/-! ### Eyedropper (C8) -/

/-- The guard of the drag-start branch of `mousePressEvent`: there is a
floating image in move mode and the click lands inside it. -/
def Notebook.pressStartsDrag (s : Notebook) (localPos : Int × Int) : Prop :=
  match s.floating_image with
  | none => False
  | some ov =>
      s.move_mode = true ∧
      0 ≤ localPos.1 - s.floating_pos.1 ∧
      localPos.1 - s.floating_pos.1 < (ov.width : Int) ∧
      0 ≤ localPos.2 - s.floating_pos.2 ∧
      localPos.2 - s.floating_pos.2 < (ov.height : Int)

/-- C8: a left press with the eyedropper armed, the pointer inside the
canvas, and no overlay drag starting samples the pixel under the pointer
as the new pen color, disarms eyedropper and eraser, and changes nothing
else — in particular no snapshot is pushed and no stroke starts. -/
theorem eyedropper_press_spec (s : Notebook) (localPos : Int × Int) (pg : Page)
    (hpg : s.page = some pg)
    (hin : s.in_canvas localPos = true)
    (hey : s.eyedropper = true)
    (hnodrag : ¬ s.pressStartsDrag localPos) :
    s.mousePressEvent localPos =
      { s with
        pen_color := pg.canvas.pix localPos.1 localPos.2,
        eraser := false,
        eyedropper := false } := by
  have hnotin : ∀ ov, s.floating_image = some ov → s.move_mode = true →
      ¬(0 ≤ localPos.1 - s.floating_pos.1 ∧
        localPos.1 - s.floating_pos.1 < (ov.width : Int) ∧
        0 ≤ localPos.2 - s.floating_pos.2 ∧
        localPos.2 - s.floating_pos.2 < (ov.height : Int)) := by
    intro ov hov hmm hc
    exact hnodrag (by rw [Notebook.pressStartsDrag, hov]; exact ⟨hmm, hc⟩)
  rcases hov : s.floating_image with _ | ov
  · simp [Notebook.mousePressEvent, hov, hin, hey, hpg, Notebook.set_pen_color]
  · rcases hmm : s.move_mode with _ | _
    · simp [Notebook.mousePressEvent, hov, hmm, hin, hey, hpg, Notebook.set_pen_color]
    · simp [Notebook.mousePressEvent, hov, hmm, hin, hey, hpg, Notebook.set_pen_color]
      intro h1 h2 h3
      have h4 := hnotin ov hov hmm
      omega

/-- A page whose pixel values encode their coordinates, so that sampling
is observable. -/
def pickPage : Page :=
  { canvas := ⟨100, 100, fun x y => (x + 100 * y).toNat⟩, bg_image := none }

def pickNotebook : Notebook :=
  { sampleNotebook with pages := [pickPage], eyedropper := true }

theorem eyedropper_press_spec_witness :
    (pickNotebook.mousePressEvent (3, 4)).pen_color = 403 ∧
    (pickNotebook.mousePressEvent (3, 4)).eyedropper = false ∧
    (pickNotebook.mousePressEvent (3, 4)).eraser = false ∧
    (pickNotebook.mousePressEvent (3, 4)).undo_stacks = pickNotebook.undo_stacks ∧
    (pickNotebook.mousePressEvent (3, 4)).redo_stacks = pickNotebook.redo_stacks ∧
    (pickNotebook.mousePressEvent (3, 4)).pages = pickNotebook.pages := by
  have h := eyedropper_press_spec pickNotebook (3, 4) pickPage rfl (by decide) rfl
    (fun hc => hc)
  rw [h]
  exact ⟨by decide, rfl, rfl, rfl, rfl, rfl⟩

/-! ### Page deletion and the history dictionary (C1) -/

/-- A page of a recognisable size. -/
def pageOfWidth (w : Nat) : Page :=
  { canvas := Pixmap.filled w w whiteColor, bg_image := none }

/-- Three pages whose undo histories are distinguishable by the size of
the stored snapshot. -/
def threePageNotebook : Notebook :=
  { sampleNotebook with
    pages := [pageOfWidth 10, pageOfWidth 20, pageOfWidth 30]
    current_page_idx := 0
    undo_stacks := fun i =>
      if i = 0 then some [Pixmap.filled 1 1 blackColor]
      else if i = 1 then some [Pixmap.filled 2 2 blackColor]
      else if i = 2 then some [Pixmap.filled 3 3 blackColor]
      else none
    redo_stacks := fun _ => some [] }

/-- C1 fails on the code: deleting page 0 of 3 sets the index to 0 and
drops the dictionary entry at key 0, but the entries at keys 1 and 2 are
not reindexed.  The page formerly at index 2 (width 30) is now at index
1, yet the history found under key 1 is still the former page 1's
history — a remaining page ends up associated with another page's
undo history, and the page now at index 0 has lost its history entirely. -/
theorem delete_page_misattributes_history :
    (threePageNotebook.delete_current_page).current_page_idx = 0 ∧
    (threePageNotebook.delete_current_page).pages = [pageOfWidth 20, pageOfWidth 30] ∧
    (threePageNotebook.delete_current_page).undo_stacks 0 = none ∧
    (threePageNotebook.delete_current_page).undo_stacks 1 =
      some [Pixmap.filled 2 2 blackColor] ∧
    threePageNotebook.undo_stacks 2 = some [Pixmap.filled 3 3 blackColor] ∧
    some [Pixmap.filled 2 2 blackColor] ≠ some [Pixmap.filled 3 3 blackColor] := by
  refine ⟨rfl, rfl, rfl, rfl, rfl, ?_⟩
  intro h
  injection h with h1
  injection h1 with h2
  exact absurd (congrArg Pixmap.width h2) (by decide)

/-! ### Background decode failure (C3) -/

def badPath : String := "corrupt-image.png"

/-- A session whose redo stack is non-empty, to observe the clearing. -/
def redoFullNotebook : Notebook :=
  { sampleNotebook with
    undo_stacks := fun i => if i = 0 then some [] else none
    redo_stacks := fun i => if i = 0 then some [Pixmap.filled 5 5 blackColor] else none }

/-- C3 fails on the code: when the chosen background image cannot be
decoded, `set_background_image` has already pushed an undo snapshot
(clearing the redo stack) before the decode is attempted, and
`Page.set_background` still records the undecodable path as the page's
background reference; only the buffer pixels and the active index are
left intact.  No error is raised. -/
theorem set_background_decode_failure_mutates_state :
    ((redoFullNotebook.set_background_image (some badPath) none).pages.getD 0
        default).bg_image = some badPath ∧
    ((redoFullNotebook.set_background_image (some badPath) none).pages.getD 0
        default).canvas = Pixmap.filled 100 100 whiteColor ∧
    (redoFullNotebook.set_background_image (some badPath) none).undo_stacks 0 =
      some [Pixmap.filled 100 100 whiteColor] ∧
    (redoFullNotebook.set_background_image (some badPath) none).redo_stacks 0 = some [] ∧
    redoFullNotebook.redo_stacks 0 = some [Pixmap.filled 5 5 blackColor] ∧
    (redoFullNotebook.set_background_image (some badPath) none).current_page_idx =
      redoFullNotebook.current_page_idx :=
  ⟨rfl, rfl, rfl, rfl, rfl, rfl⟩

/-! ### Snapshot isolation (C9): a heap model of buffer identity

Whether a later in-place mutation of the live canvas can corrupt a stored
snapshot is a question about object identity, which the value model above
cannot ask.  Here the buffers live in an explicit heap (a list of pixmaps
addressed by allocation index), `QPixmap.copy()` allocates a fresh cell
with the same contents, and the per-page stacks hold references, exactly
following the source:

* `snapshotH` (notebook.py 197-202): push a reference to a fresh copy of
  the live buffer onto undo, clear redo;
* `undoH`/`redoH` (204-225): allocate a fresh copy of the live buffer
  for the opposite stack, then install the popped reference itself as
  the live buffer (`self.page().canvas = last` is not a copy);
* `mutateH`: an in-place `QPainter` write through the live reference
  (stroke segments, notebook.py 449-461; overlay stamp, 354-369;
  background application, 291-296). -/

structure HeapState where
  heap : List Pixmap
  live : Nat
  undoRefs : List Nat
  redoRefs : List Nat

/-- Contents of the heap cell a reference points to. -/
def HeapState.heapAt (s : HeapState) (r : Nat) : Pixmap := s.heap.getD r default

def HeapState.snapshotH (s : HeapState) : HeapState :=
  { heap := s.heap ++ [s.heapAt s.live]
    live := s.live
    undoRefs := s.heap.length :: s.undoRefs
    redoRefs := [] }

def HeapState.mutateH (f : Pixmap → Pixmap) (s : HeapState) : HeapState :=
  { s with heap := s.heap.set s.live (f (s.heapAt s.live)) }

def HeapState.undoH (s : HeapState) : HeapState :=
  match s.undoRefs with
  | [] => s
  | last :: rest =>
    { heap := s.heap ++ [s.heapAt s.live]
      live := last
      undoRefs := rest
      redoRefs := s.heap.length :: s.redoRefs }

def HeapState.redoH (s : HeapState) : HeapState :=
  match s.redoRefs with
  | [] => s
  | next :: rest =>
    { heap := s.heap ++ [s.heapAt s.live]
      live := next
      undoRefs := s.heap.length :: s.undoRefs
      redoRefs := rest }

/-- Heap states of one page's session: a freshly created page buffer,
closed under the history operations and in-place mutation. -/
inductive ReachableH : HeapState → Prop where
  | init : ∀ c, ReachableH ⟨[c], 0, [], []⟩
  | snapshot : ∀ s, ReachableH s → ReachableH s.snapshotH
  | mutate : ∀ s f, ReachableH s → ReachableH (s.mutateH f)
  | undoStep : ∀ s, ReachableH s → ReachableH s.undoH
  | redoStep : ∀ s, ReachableH s → ReachableH s.redoH

/-- The aliasing invariant: the live reference is allocated, every stack
reference is allocated and distinct from the live reference, and the
stack references are pairwise distinct. -/
def HeapInv (s : HeapState) : Prop :=
  s.live < s.heap.length ∧
  (∀ r ∈ s.undoRefs ++ s.redoRefs, r < s.heap.length ∧ r ≠ s.live) ∧
  (s.undoRefs ++ s.redoRefs).Nodup

theorem heapInv_of_reachable {s : HeapState} (h : ReachableH s) : HeapInv s := by
  induction h with
  | init c => exact ⟨by simp, by simp, by simp⟩
  | snapshot s hs ih =>
    obtain ⟨h1, h2, h3⟩ := ih
    refine ⟨?_, ?_, ?_⟩
    · simp only [HeapState.snapshotH, List.length_append, List.length_cons]
      omega
    · intro r hr
      simp only [HeapState.snapshotH, List.append_nil, List.mem_cons] at hr
      simp only [HeapState.snapshotH, List.length_append, List.length_cons]
      rcases hr with rfl | hm
      · exact ⟨by omega, by omega⟩
      · obtain ⟨ha, hb⟩ := h2 r (List.mem_append_left _ hm)
        exact ⟨by omega, hb⟩
    · simp only [HeapState.snapshotH, List.append_nil]
      refine List.nodup_cons.mpr ⟨?_, (List.nodup_append.mp h3).1⟩
      intro hm
      obtain ⟨ha, _⟩ := h2 _ (List.mem_append_left _ hm)
      omega
  | mutate s f hs ih =>
    obtain ⟨h1, h2, h3⟩ := ih
    exact ⟨by simpa [HeapState.mutateH] using h1,
      by simpa [HeapState.mutateH] using h2, h3⟩
  | undoStep s hs ih =>
    obtain ⟨h1, h2, h3⟩ := ih
    rcases hu : s.undoRefs with _ | ⟨last, rest⟩
    · simp only [HeapState.undoH, hu]
      exact ⟨h1, h2, h3⟩
    · rw [hu] at h2 h3
      rw [List.cons_append, List.nodup_cons] at h3
      obtain ⟨hlast, hrr⟩ := h3
      obtain ⟨hl1, hl2⟩ := h2 last (by simp)
      refine ⟨?_, ?_, ?_⟩
      · simp only [HeapState.undoH, hu, List.length_append, List.length_cons]
        omega
      · intro r hr
        simp only [HeapState.undoH, hu, List.mem_append, List.mem_cons] at hr
        simp only [HeapState.undoH, hu, List.length_append, List.length_cons]
        rcases hr with hm | rfl | hm
        · obtain ⟨ha, _⟩ := h2 r (List.mem_append_left _ (List.mem_cons_of_mem _ hm))
          refine ⟨by omega, fun he => hlast (he ▸ List.mem_append_left _ hm)⟩
        · exact ⟨by omega, by omega⟩
        · obtain ⟨ha, _⟩ := h2 r (List.mem_append_right _ hm)
          refine ⟨by omega, fun he => hlast (he ▸ List.mem_append_right _ hm)⟩
      · simp only [HeapState.undoH, hu]
        rw [List.nodup_middle]
        refine List.nodup_cons.mpr ⟨?_, hrr⟩
        intro hm
        rcases List.mem_append.mp hm with hm1 | hm1
        · obtain ⟨ha, _⟩ := h2 _ (List.mem_append_left _ (List.mem_cons_of_mem _ hm1))
          omega
        · obtain ⟨ha, _⟩ := h2 _ (List.mem_append_right _ hm1)
          omega
  | redoStep s hs ih =>
    obtain ⟨h1, h2, h3⟩ := ih
    rcases hu : s.redoRefs with _ | ⟨next, rest⟩
    · simp only [HeapState.redoH, hu]
      exact ⟨h1, h2, h3⟩
    · rw [hu] at h2 h3
      rw [List.nodup_middle, List.nodup_cons] at h3
      obtain ⟨hnext, hur⟩ := h3
      obtain ⟨hn1, hn2⟩ := h2 next (List.mem_append_right _ (by simp))
      refine ⟨?_, ?_, ?_⟩
      · simp only [HeapState.redoH, hu, List.length_append, List.length_cons]
        omega
      · intro r hr
        simp only [HeapState.redoH, hu, List.cons_append, List.mem_cons,
          List.mem_append] at hr
        simp only [HeapState.redoH, hu, List.length_append, List.length_cons]
        rcases hr with rfl | hm | hm
        · exact ⟨by omega, by omega⟩
        · obtain ⟨ha, _⟩ := h2 r (List.mem_append_left _ hm)
          refine ⟨by omega, fun he => hnext (he ▸ List.mem_append_left _ hm)⟩
        · obtain ⟨ha, _⟩ := h2 r (List.mem_append_right _ (List.mem_cons_of_mem _ hm))
          refine ⟨by omega, fun he => hnext (he ▸ List.mem_append_right _ hm)⟩
      · simp only [HeapState.redoH, hu, List.cons_append]
        refine List.nodup_cons.mpr ⟨?_, hur⟩
        intro hm
        rcases List.mem_append.mp hm with hm1 | hm1
        · obtain ⟨ha, _⟩ := h2 _ (List.mem_append_left _ hm1)
          omega
        · obtain ⟨ha, _⟩ := h2 _ (List.mem_append_right _ (List.mem_cons_of_mem _ hm1))
          omega

/-- C9: in any reachable session state, an in-place mutation of the live
page buffer (a stroke segment, an overlay stamp or a background
application all write through the live reference) leaves the pixel
contents of every snapshot stored on the undo or redo stack unchanged —
stored snapshots are fresh copies whose references never alias the live
buffer. -/
theorem snapshot_isolation {s : HeapState} (h : ReachableH s) (r : Nat)
    (hr : r ∈ s.undoRefs ++ s.redoRefs) (f : Pixmap → Pixmap) :
    (s.mutateH f).heapAt r = s.heapAt r := by
  obtain ⟨h1, h2, h3⟩ := heapInv_of_reachable h
  obtain ⟨hlt, hne⟩ := h2 r hr
  simp only [HeapState.mutateH, HeapState.heapAt]
  rw [List.getD_eq_getElem?_getD, List.getElem?_set_ne (Ne.symm hne),
    ← List.getD_eq_getElem?_getD]

theorem snapshot_isolation_witness :
    (1 ∈ (HeapState.snapshotH ⟨[Pixmap.filled 2 2 blackColor], 0, [], []⟩).undoRefs ++
      (HeapState.snapshotH ⟨[Pixmap.filled 2 2 blackColor], 0, [], []⟩).redoRefs) ∧
    ((HeapState.snapshotH ⟨[Pixmap.filled 2 2 blackColor], 0, [], []⟩).mutateH
        (fun _ => Pixmap.filled 9 9 redColor)).heapAt 1 =
      (HeapState.snapshotH ⟨[Pixmap.filled 2 2 blackColor], 0, [], []⟩).heapAt 1 :=
  ⟨by decide,
   snapshot_isolation
     (ReachableH.snapshot _ (ReachableH.init (Pixmap.filled 2 2 blackColor)))
     1 (by decide) (fun _ => Pixmap.filled 9 9 redColor)⟩

/-! ### Overlay/move-mode coupling (C10) -/

theorem Notebook.snapshot_overlayFields (s : Notebook) :
    s.snapshot.floating_image = s.floating_image ∧ s.snapshot.move_mode = s.move_mode := by
  simp only [Notebook.snapshot]
  split <;> exact ⟨rfl, rfl⟩

theorem Notebook.undo_overlayFields (s : Notebook) :
    s.undo.floating_image = s.floating_image ∧ s.undo.move_mode = s.move_mode := by
  simp only [Notebook.undo]
  split
  · exact ⟨rfl, rfl⟩
  · split <;> exact ⟨rfl, rfl⟩

theorem Notebook.redo_overlayFields (s : Notebook) :
    s.redo.floating_image = s.floating_image ∧ s.redo.move_mode = s.move_mode := by
  simp only [Notebook.redo]
  split
  · exact ⟨rfl, rfl⟩
  · split <;> exact ⟨rfl, rfl⟩

theorem Notebook.mutateCanvas_overlayFields (f : Pixmap → Pixmap) (s : Notebook) :
    (s.mutateCanvas f).floating_image = s.floating_image ∧
    (s.mutateCanvas f).move_mode = s.move_mode := by
  simp only [Notebook.mutateCanvas]
  split <;> exact ⟨rfl, rfl⟩

theorem Notebook.add_page_overlayFields (winW winH toolbarH : Nat)
    (decoded : Option Pixmap) (s : Notebook) :
    (s.add_page winW winH toolbarH decoded).floating_image = s.floating_image ∧
    (s.add_page winW winH toolbarH decoded).move_mode = s.move_mode :=
  ⟨(Notebook.snapshot_overlayFields _).1, (Notebook.snapshot_overlayFields _).2⟩

theorem Notebook.set_background_image_overlayFields (fname : Option String)
    (decoded : Option Pixmap) (s : Notebook) :
    (s.set_background_image fname decoded).floating_image = s.floating_image ∧
    (s.set_background_image fname decoded).move_mode = s.move_mode := by
  simp only [Notebook.set_background_image]
  split
  · split
    · exact ⟨(Notebook.snapshot_overlayFields _).1, (Notebook.snapshot_overlayFields _).2⟩
    · exact ⟨(Notebook.snapshot_overlayFields _).1, (Notebook.snapshot_overlayFields _).2⟩
  · exact ⟨rfl, rfl⟩

theorem Notebook.mousePressEvent_overlayFields (localPos : Int × Int) (s : Notebook) :
    (s.mousePressEvent localPos).floating_image = s.floating_image ∧
    (s.mousePressEvent localPos).move_mode = s.move_mode := by
  simp only [Notebook.mousePressEvent]
  repeat' split
  all_goals
    first
      | exact ⟨rfl, rfl⟩
      | exact ⟨(Notebook.snapshot_overlayFields _).1, (Notebook.snapshot_overlayFields _).2⟩

theorem Notebook.mouseMoveEvent_overlayFields
    (drawLine : Pixmap → Int × Int → Int × Int → Color → Nat → Pixmap)
    (localPos : Int × Int) (leftHeld : Bool) (s : Notebook) :
    (s.mouseMoveEvent drawLine localPos leftHeld).floating_image = s.floating_image ∧
    (s.mouseMoveEvent drawLine localPos leftHeld).move_mode = s.move_mode := by
  simp only [Notebook.mouseMoveEvent]
  repeat' split
  all_goals
    first
      | exact ⟨rfl, rfl⟩
      | exact ⟨(Notebook.mutateCanvas_overlayFields _ _).1,
          (Notebook.mutateCanvas_overlayFields _ _).2⟩

/-- Transfer the overlay/move coupling along unchanged fields. -/
theorem overlayCoupling_transfer {a b : Notebook}
    (hf : a.floating_image = b.floating_image) (hm : a.move_mode = b.move_mode)
    (h : b.floating_image.isSome → b.move_mode = true) :
    a.floating_image.isSome → a.move_mode = true := by
  rw [hf, hm]
  exact h

theorem overlayInv_of_reachable
    {drawLine : Pixmap → Int × Int → Int × Int → Color → Nat → Pixmap}
    {s : Notebook} (h : Reachable drawLine s) :
    s.floating_image.isSome → s.move_mode = true := by
  induction h with
  | init winW winH toolbarH decoded =>
    exact overlayCoupling_transfer (Notebook.add_page_overlayFields _ _ _ _ _).1
      (Notebook.add_page_overlayFields _ _ _ _ _).2 (by intro hcon; simp at hcon)
  | step s e hs ih =>
    cases e with
    | setPenColor c => exact ih
    | enableEyedropper => exact ih
    | toggleEraser b => exact ih
    | toggleEraserShortcut => exact ih
    | setPenWidth v => exact ih
    | setBackgroundImage fname decoded =>
      exact overlayCoupling_transfer
        (Notebook.set_background_image_overlayFields fname decoded s).1
        (Notebook.set_background_image_overlayFields fname decoded s).2 ih
    | addPage w h t decoded =>
      exact overlayCoupling_transfer (Notebook.add_page_overlayFields w h t decoded s).1
        (Notebook.add_page_overlayFields w h t decoded s).2 ih
    | deletePage =>
      simp only [stepEvent, Notebook.delete_current_page]
      split
      · exact ih
      · split <;> exact ih
    | changePage i =>
      simp only [stepEvent, Notebook.change_page]
      split <;> exact ih
    | undoEvt =>
      exact overlayCoupling_transfer (Notebook.undo_overlayFields s).1
        (Notebook.undo_overlayFields s).2 ih
    | redoEvt =>
      exact overlayCoupling_transfer (Notebook.redo_overlayFields s).1
        (Notebook.redo_overlayFields s).2 ih
    | paste clip =>
      simp only [stepEvent, Notebook.paste_image]
      split
      · exact ih
      · split
        · exact ih
        · intro _; rfl
    | toggleMoveMode =>
      simp only [stepEvent, Notebook.toggle_move_mode]
      split
      · exact ih
      · split
        · split
          · intro hcon; simp at hcon
          · intro hcon; simp at hcon
        · intro _; rfl
    | press p =>
      exact overlayCoupling_transfer (Notebook.mousePressEvent_overlayFields p s).1
        (Notebook.mousePressEvent_overlayFields p s).2 ih
    | move p held =>
      exact overlayCoupling_transfer
        (Notebook.mouseMoveEvent_overlayFields drawLine p held s).1
        (Notebook.mouseMoveEvent_overlayFields drawLine p held s).2 ih
    | release => exact ih

theorem Notebook.press_with_overlay_keeps_history (s : Notebook) (localPos : Int × Int)
    (ov : Pixmap) (hov : s.floating_image = some ov) :
    (s.mousePressEvent localPos).undo_stacks = s.undo_stacks ∧
    (s.mousePressEvent localPos).redo_stacks = s.redo_stacks ∧
    (s.mousePressEvent localPos).pages = s.pages := by
  rcases hp : s.page with _ | pg <;>
    simp only [Notebook.mousePressEvent, hov, hp] <;>
    repeat' split
  all_goals exact ⟨rfl, rfl, rfl⟩

theorem Notebook.toggle_with_overlay_commits (s : Notebook) (ov : Pixmap)
    (hov : s.floating_image = some ov) (hm : s.move_mode = true) :
    (s.toggle_move_mode).floating_image = none ∧
    (s.toggle_move_mode).move_mode = false := by
  simp only [Notebook.toggle_move_mode, hov, hm, if_true]
  split <;> exact ⟨rfl, rfl⟩

/-- C10: in every reachable application state a floating overlay implies
move mode is on; consequently a pointer-down while an overlay exists
never starts a drawing stroke (no snapshot: undo/redo stacks and pages
are untouched), and toggling move mode with an overlay present always
commits it (the re-enter branch of `toggle_move_mode`, which would keep
the overlay with move mode re-enabled, is never taken). -/
theorem overlay_implies_move_mode
    (drawLine : Pixmap → Int × Int → Int × Int → Color → Nat → Pixmap)
    (s : Notebook) (h : Reachable drawLine s) :
    (s.floating_image.isSome → s.move_mode = true) ∧
    (∀ localPos ov, s.floating_image = some ov →
      (s.mousePressEvent localPos).undo_stacks = s.undo_stacks ∧
      (s.mousePressEvent localPos).redo_stacks = s.redo_stacks ∧
      (s.mousePressEvent localPos).pages = s.pages) ∧
    (∀ ov, s.floating_image = some ov →
      (s.toggle_move_mode).floating_image = none ∧
      (s.toggle_move_mode).move_mode = false) := by
  refine ⟨overlayInv_of_reachable h, ?_, ?_⟩
  · intro localPos ov hov
    exact Notebook.press_with_overlay_keeps_history s localPos ov hov
  · intro ov hov
    exact Notebook.toggle_with_overlay_commits s ov hov
      (overlayInv_of_reachable h (by simp [hov]))

theorem overlay_implies_move_mode_witness :
    ((stepEvent dlKeep (Event.paste (some (Pixmap.filled 20 20 redColor)))
        (Notebook.init 300 300 20 none)).floating_image =
      some (Pixmap.filled 20 20 redColor)) ∧
    ((stepEvent dlKeep (Event.paste (some (Pixmap.filled 20 20 redColor)))
        (Notebook.init 300 300 20 none)).move_mode = true) ∧
    (((stepEvent dlKeep (Event.paste (some (Pixmap.filled 20 20 redColor)))
        (Notebook.init 300 300 20 none)).toggle_move_mode).floating_image = none) := by
  have hreach : Reachable dlKeep
      (stepEvent dlKeep (Event.paste (some (Pixmap.filled 20 20 redColor)))
        (Notebook.init 300 300 20 none)) :=
    Reachable.step _ _ (Reachable.init 300 300 20 none)
  have h := overlay_implies_move_mode dlKeep _ hreach
  refine ⟨rfl, h.1 (by rw [show (stepEvent dlKeep
      (Event.paste (some (Pixmap.filled 20 20 redColor)))
      (Notebook.init 300 300 20 none)).floating_image =
        some (Pixmap.filled 20 20 redColor) from rfl]; rfl), ?_⟩
  exact (h.2.2 (Pixmap.filled 20 20 redColor) rfl).1
